import Mathlib

/-!
Verification of the payment-channel keeper in `src/internal/x/paychan/keeper.go`
(repository strcmpst/kava).

The Go code is shallowly embedded: Go byte slices (`sdk.Address`, store keys,
string data) become `List Nat`; `sdk.Int`-valued coin quantities become `Int`
(`sdk.Int` is an arbitrary-precision integer); the external byte-keyed Store
and the bank (Ledger Service) account state are association lists threaded
explicitly through each operation; fallible operations return `Except`.
The serialization codec is modelled as faithful (the store maps keys directly
to `Paychan` values), per the external-collaborator contract.

The `sdk.Coins` arithmetic (`IsValid`, `IsPositive`, `IsNotNegative`, `Plus`,
`Minus`) and the bank keeper (`SubtractCoins`, `AddCoins`) are translated from
the cosmos-sdk dependency the source imports (2018-era, `wire`-codec line).
-/

namespace Kava

/-- Go byte slice: addresses, denominations and store keys are raw bytes. -/
abbrev Bytes := List Nat

abbrev Address := Bytes

abbrev Denom := Bytes

/-- One denomination with its quantity; models sdk.Coin (Amount is sdk.Int,
an arbitrary-precision integer, hence Lean Int). -/
structure Coin where
  denom : Denom
  amount : Int
deriving Repr, DecidableEq

abbrev Coins := List Coin

/-- Lexicographic byte-string order; models Go strings.Compare returning -1
(true) on the pair, used denomination-wise by the sdk Coins functions. -/
def bytesLt : Bytes → Bytes → Bool
  | [], [] => false
  | [], _ :: _ => true
  | _ :: _, [] => false
  | a :: as, b :: bs =>
    if a < b then true
    else if b < a then false
    else bytesLt as bs

/-- Models sdk Coin.IsZero. -/
def Coin.IsZero (c : Coin) : Bool := decide (c.amount = 0)

/-- Models sdk Coin.IsPositive (Amount.Sign() == 1). -/
def Coin.IsPositive (c : Coin) : Bool := decide (0 < c.amount)

/-- Models sdk Coin.IsNotNegative (Amount.Sign() >= 0). -/
def Coin.IsNotNegative (c : Coin) : Bool := decide (0 ≤ c.amount)

/-- Loop of sdk Coins.IsValid for two or more coins: every later denomination
must be strictly greater than the running one, and no later coin is zero. -/
def validAfter : Denom → Coins → Bool
  | _, [] => true
  | low, c :: rest =>
    if bytesLt low c.denom then
      if c.IsZero then false else validAfter c.denom rest
    else false

/-- Models sdk Coins.IsValid: empty is valid, a singleton must be non-zero,
longer lists must be strictly sorted by denomination with no zero coin after
the first. -/
def Coins.IsValid : Coins → Bool
  | [] => true
  | [c] => !c.IsZero
  | c :: rest => validAfter c.denom rest

/-- Models sdk Coins.IsPositive: non-empty and every coin positive. -/
def Coins.IsPositive (coins : Coins) : Bool :=
  !coins.isEmpty && coins.all Coin.IsPositive

/-- Models sdk Coins.IsNotNegative: no coin with a negative amount
(true on empty). -/
def Coins.IsNotNegative (coins : Coins) : Bool :=
  coins.all Coin.IsNotNegative

/-- Merge loop of sdk Coins.Plus. The Go loop walks both lists with two
indices; here the pending suffixes are the two list arguments and `fuel`
bounds the remaining iterations. Each iteration consumes at least one element
of one suffix, so the wrapper's bound (sum of the lengths) is never exhausted;
the fuel-0 case is unreachable from `Coins.Plus`. A coin pair with equal
denominations summing to zero is dropped, as in the source. -/
def plusAux : Nat → Coins → Coins → Coins
  | _, [], bs => bs
  | _, a :: as, [] => a :: as
  | 0, a :: as, _ :: _ => a :: as
  | n + 1, a :: as, b :: bs =>
    if bytesLt a.denom b.denom then a :: plusAux n as (b :: bs)
    else if bytesLt b.denom a.denom then b :: plusAux n (a :: as) bs
    else if a.amount + b.amount = 0 then plusAux n as bs
    else ⟨a.denom, a.amount + b.amount⟩ :: plusAux n as bs

/-- Models sdk Coins.Plus: denomination-wise merge of the two lists. -/
def Coins.Plus (as bs : Coins) : Coins :=
  plusAux (as.length + bs.length) as bs

/-- Models sdk Coins.Negative: negate every amount. -/
def Coins.Negative (coins : Coins) : Coins :=
  coins.map fun c => ⟨c.denom, -c.amount⟩

/-- Models sdk Coins.Minus: Plus of the negation. -/
def Coins.Minus (as bs : Coins) : Coins :=
  as.Plus bs.Negative

/-- Modelled from the spec: the Channel entity (the Paychan struct of the
repository is declared outside the provided source file; its four fields are
fixed by their uses in keeper.go and by the spec's data model). -/
structure Paychan where
  sender : Address
  receiver : Address
  id : Int
  balance : Coins
deriving Repr, DecidableEq

/-- Go zero value of Paychan, what `var pych Paychan` denotes. -/
def zeroPaychan : Paychan := { sender := [], receiver := [], id := 0, balance := [] }

/-- The sdk error kinds the keeper actually constructs. The source attaches a
string payload (offending field's string form) which carries no control flow
and is omitted. `invalidCoins` is sdk.ErrInvalidCoins (the spec's
InvalidAmount); `unknownAddress` is sdk.ErrUnknownAddress, used by the source
with the message "paychan not found" (the spec's ChannelNotFound);
`insufficientFunds` covers sdk.ErrInsufficientCoins from the bank debit and
sdk.ErrInsufficientFunds from channel closure (the spec's InsufficientFunds).
No distinct channel-id error kind exists in the source. -/
inductive Err where
  | invalidAddress
  | invalidCoins
  | unknownAddress
  | insufficientFunds
deriving Repr, DecidableEq

/-- External byte-keyed Store holding channel records (codec modelled as
faithful). -/
abbrev Store := List (Bytes × Paychan)

/-- Store get: first binding of the key, absent is none. -/
def storeGet : Store → Bytes → Option Paychan
  | [], _ => none
  | (k, v) :: rest, key => if k = key then some v else storeGet rest key

/-- Store set: overwrite the binding of the key, or append it. -/
def storeSet : Store → Bytes → Paychan → Store
  | [], key, v => [(key, v)]
  | (k, w) :: rest, key, v =>
    if k = key then (key, v) :: rest else (k, w) :: storeSet rest key v

/-- Store delete: remove the binding of the key. -/
def storeDelete : Store → Bytes → Store
  | [], _ => []
  | (k, w) :: rest, key =>
    if k = key then storeDelete rest key else (k, w) :: storeDelete rest key

/-- External Ledger Service account state: spendable Coins per address. -/
abbrev Accounts := List (Address × Coins)

/-- Models bank getCoins: an absent account holds no coins. -/
def getCoins : Accounts → Address → Coins
  | [], _ => []
  | (a, c) :: rest, addr => if a = addr then c else getCoins rest addr

/-- Models bank setCoins. -/
def setCoins : Accounts → Address → Coins → Accounts
  | [], addr, c => [(addr, c)]
  | (a, w) :: rest, addr, c =>
    if a = addr then (addr, c) :: rest else (a, w) :: setCoins rest addr c

/-- Models bank SubtractCoins: fails (insufficient funds) when the new
balance would be negative in some denomination, otherwise stores it. -/
def subtractCoins (accts : Accounts) (addr : Address) (amt : Coins) :
    Except Err Accounts :=
  let newCoins := (getCoins accts addr).Minus amt
  if newCoins.IsNotNegative then .ok (setCoins accts addr newCoins)
  else .error .insufficientFunds

/-- Models bank AddCoins, whose error return the source discards: when the
new balance would be negative in some denomination nothing is stored,
otherwise it is written (creating the account if absent). -/
def addCoins (accts : Accounts) (addr : Address) (amt : Coins) : Accounts :=
  let newCoins := (getCoins accts addr).Plus amt
  if newCoins.IsNotNegative then setCoins accts addr newCoins else accts

/-- Decimal digit bytes of a natural number, most significant first; `fuel`
bounds the division chain and is never exhausted by `itoa`. -/
def itoaAux : Nat → Nat → List Nat
  | 0, _ => []
  | fuel + 1, n =>
    if n = 0 then [] else itoaAux fuel (n / 10) ++ [48 + n % 10]

/-- Models strconv.Itoa on the channel id: ASCII decimal string as bytes,
with a leading minus sign (byte 45) for negative values. -/
def itoa (i : Int) : List Nat :=
  if i < 0 then 45 :: itoaAux ((-i).toNat + 1) (-i).toNat
  else if i = 0 then [48]
  else itoaAux (i.toNat + 1) i.toNat

/-- Models paychanKey: append sender and receiver byte slices, then the
decimal bytes of the id. -/
def paychanKey (sender receiver : Address) (id : Int) : Bytes :=
  (sender ++ receiver) ++ itoa id

/-- The combined state the keeper mutates: the channel Store and the external
Ledger Service accounts. -/
structure St where
  store : Store
  accounts : Accounts
deriving Repr, DecidableEq

/-- Models Keeper.GetPaychan: read the Store at the encoded key; absence
yields the zero-value Paychan and false. -/
def GetPaychan (store : Store) (sender receiver : Address) (id : Int) :
    Paychan × Bool :=
  match storeGet store (paychanKey sender receiver id) with
  | none => (zeroPaychan, false)
  | some pych => (pych, true)

/-- Models Keeper.setPaychan: write the record under its own key. -/
def setPaychan (store : Store) (pych : Paychan) : Store :=
  storeSet store (paychanKey pych.sender pych.receiver pych.id) pych

/-- Models Keeper.GetPaychans exactly as in the source: the body is an
unimplemented stub (a TODO) that returns the nil slice for every pair. -/
def GetPaychans (_sender _receiver : Address) : List Paychan := []

/-- Models Keeper.CreatePaychan: validate, pick id as one plus the number of
channels GetPaychans reports for the pair, debit the sender through the bank,
and persist the new channel. An error return leaves the caller's state
unchanged (no state is produced). -/
def CreatePaychan (st : St) (sender receiver : Address) (amount : Coins) :
    Except Err St :=
  if sender.isEmpty then .error .invalidAddress
  else if receiver.isEmpty then .error .invalidAddress
  else if amount.isEmpty then .error .invalidCoins
  else if !amount.IsValid then .error .invalidCoins
  else if !amount.IsPositive then .error .invalidCoins
  else
    let id : Int := ((GetPaychans sender receiver).length : Int) + 1
    match subtractCoins st.accounts sender amount with
    | .error e => .error e
    | .ok accts =>
      let pych : Paychan :=
        { sender := sender, receiver := receiver, id := id, balance := amount }
      .ok { store := setPaychan st.store pych, accounts := accts }

/-- Models Keeper.ClosePaychan: validate (a negative id is rejected with
sdk.ErrInvalidAddress in the source), look the channel up, require the
remainder balance minus receiverAmount to be non-negative, credit both
parties, and delete the record under the stored channel's own key. An error
return leaves the caller's state unchanged (no state is produced). -/
def ClosePaychan (st : St) (sender receiver : Address) (id : Int)
    (receiverAmount : Coins) : Except Err St :=
  if sender.isEmpty then .error .invalidAddress
  else if receiver.isEmpty then .error .invalidAddress
  else if receiverAmount.isEmpty then .error .invalidCoins
  else if id < 0 then .error .invalidAddress
  else if !receiverAmount.IsValid then .error .invalidCoins
  else if !receiverAmount.IsPositive then .error .invalidCoins
  else
    match GetPaychan st.store sender receiver id with
    | (_, false) => .error .unknownAddress
    | (pych, true) =>
      let senderAmount := pych.balance.Minus receiverAmount
      if senderAmount.IsNotNegative then
        let accts1 := addCoins st.accounts sender senderAmount
        let accts2 := addCoins accts1 receiver receiverAmount
        let store1 := storeDelete st.store
          (paychanKey pych.sender pych.receiver pych.id)
        .ok { store := store1, accounts := accts2 }
      else .error .insufficientFunds

/-- Specification-side measure: the total quantity a coin list assigns to one
denomination (the per-denomination view the spec's conservation property is
stated in). -/
def amountOfDenom : Coins → Denom → Int
  | [], _ => 0
  | c :: rest, d => (if c.denom = d then c.amount else 0) + amountOfDenom rest d

/-! Helper lemmas about the coin arithmetic and the association-list state. -/

theorem bytesLt_false_antisymm :
    ∀ (a b : Bytes), bytesLt a b = false → bytesLt b a = false → a = b
  | [], [], _, _ => rfl
  | [], _ :: _, h, _ => by simp [bytesLt] at h
  | _ :: _, [], _, h2 => by simp [bytesLt] at h2
  | a :: as, b :: bs, h, h2 => by
    simp only [bytesLt] at h h2
    by_cases hab : a < b
    · simp [hab] at h
    · by_cases hba : b < a
      · simp [hba] at h2
      · have hd : a = b := by omega
        subst hd
        simp only [lt_irrefl, if_false] at h h2
        rw [bytesLt_false_antisymm as bs h h2]

theorem amountOfDenom_plusAux (d : Denom) :
    ∀ (n : Nat) (as bs : Coins), as.length + bs.length ≤ n →
      amountOfDenom (plusAux n as bs) d = amountOfDenom as d + amountOfDenom bs d := by
  intro n
  induction n with
  | zero =>
    intro as bs h
    match as, bs with
    | [], bs => simp [plusAux, amountOfDenom]
    | a :: as, [] => simp [plusAux, amountOfDenom]
    | a :: as, b :: bs => simp at h
  | succ n ih =>
    intro as bs h
    match as, bs with
    | [], bs => simp [plusAux, amountOfDenom]
    | a :: as, [] => simp [plusAux, amountOfDenom]
    | a :: as, b :: bs =>
      simp only [List.length_cons] at h
      simp only [plusAux]
      by_cases h1 : bytesLt a.denom b.denom = true
      · rw [if_pos h1]
        simp only [amountOfDenom]
        rw [ih as (b :: bs) (by simp; omega)]
        simp only [amountOfDenom]
        ring
      · rw [if_neg (by simp [h1])]
        by_cases h2 : bytesLt b.denom a.denom = true
        · rw [if_pos h2]
          simp only [amountOfDenom]
          rw [ih (a :: as) bs (by simp; omega)]
          simp only [amountOfDenom]
          ring
        · rw [if_neg (by simp [h2])]
          have hd : a.denom = b.denom := by
            exact bytesLt_false_antisymm a.denom b.denom
              (Bool.not_eq_true _ ▸ h1) (Bool.not_eq_true _ ▸ h2)
          by_cases h0 : a.amount + b.amount = 0
          · rw [if_pos h0]
            rw [ih as bs (by omega)]
            simp only [amountOfDenom, hd]
            by_cases hdd : b.denom = d <;> simp [hdd] <;> omega
          · rw [if_neg h0]
            simp only [amountOfDenom]
            rw [ih as bs (by omega)]
            simp only [hd]
            by_cases hdd : b.denom = d <;> simp [hdd] <;> ring

theorem amountOfDenom_Plus (as bs : Coins) (d : Denom) :
    amountOfDenom (Coins.Plus as bs) d = amountOfDenom as d + amountOfDenom bs d :=
  amountOfDenom_plusAux d (as.length + bs.length) as bs le_rfl

theorem amountOfDenom_Negative (bs : Coins) (d : Denom) :
    amountOfDenom (Coins.Negative bs) d = -(amountOfDenom bs d) := by
  induction bs with
  | nil => simp [Coins.Negative, amountOfDenom]
  | cons b bs ih =>
    simp only [Coins.Negative, List.map_cons, amountOfDenom] at *
    rw [ih]
    by_cases hdd : b.denom = d <;> simp [hdd] <;> ring

theorem amountOfDenom_Minus (as bs : Coins) (d : Denom) :
    amountOfDenom (Coins.Minus as bs) d = amountOfDenom as d - amountOfDenom bs d := by
  rw [Coins.Minus, amountOfDenom_Plus, amountOfDenom_Negative]
  ring

theorem isNotNegative_plusAux :
    ∀ (n : Nat) (as bs : Coins), Coins.IsNotNegative as = true →
      Coins.IsNotNegative bs = true → Coins.IsNotNegative (plusAux n as bs) = true := by
  intro n
  induction n with
  | zero =>
    intro as bs ha hb
    match as, bs with
    | [], bs => simpa [plusAux]
    | a :: as, [] => simpa [plusAux]
    | a :: as, b :: bs => simpa [plusAux]
  | succ n ih =>
    intro as bs ha hb
    match as, bs with
    | [], bs => simpa [plusAux]
    | a :: as, [] => simpa [plusAux]
    | a :: as, b :: bs =>
      simp only [Coins.IsNotNegative, List.all_cons, Bool.and_eq_true] at ha hb
      simp only [plusAux]
      by_cases h1 : bytesLt a.denom b.denom = true
      · rw [if_pos h1]
        simp only [Coins.IsNotNegative, List.all_cons, Bool.and_eq_true]
        exact ⟨ha.1, ih as (b :: bs) ha.2 (by simp [Coins.IsNotNegative, hb.1, hb.2])⟩
      · rw [if_neg (by simp [h1])]
        by_cases h2 : bytesLt b.denom a.denom = true
        · rw [if_pos h2]
          simp only [Coins.IsNotNegative, List.all_cons, Bool.and_eq_true]
          exact ⟨hb.1, ih (a :: as) bs (by simp [Coins.IsNotNegative, ha.1, ha.2]) hb.2⟩
        · rw [if_neg (by simp [h2])]
          by_cases h0 : a.amount + b.amount = 0
          · rw [if_pos h0]
            exact ih as bs ha.2 hb.2
          · rw [if_neg h0]
            simp only [Coins.IsNotNegative, List.all_cons, Bool.and_eq_true]
            refine ⟨?_, ih as bs ha.2 hb.2⟩
            have h3 : (0 : Int) ≤ a.amount := by
              have := ha.1; simp [Coin.IsNotNegative] at this; exact this
            have h4 : (0 : Int) ≤ b.amount := by
              have := hb.1; simp [Coin.IsNotNegative] at this; exact this
            simp [Coin.IsNotNegative]
            omega

theorem isNotNegative_Plus (as bs : Coins) (ha : Coins.IsNotNegative as = true)
    (hb : Coins.IsNotNegative bs = true) :
    Coins.IsNotNegative (Coins.Plus as bs) = true :=
  isNotNegative_plusAux (as.length + bs.length) as bs ha hb

theorem isNotNegative_of_isPositive (c : Coins) (h : Coins.IsPositive c = true) :
    Coins.IsNotNegative c = true := by
  simp only [Coins.IsPositive, Bool.and_eq_true, List.all_eq_true] at h
  simp only [Coins.IsNotNegative, List.all_eq_true]
  intro x hx
  have := h.2 x hx
  simp [Coin.IsPositive] at this
  simp [Coin.IsNotNegative]
  omega

theorem amountOfDenom_nonneg (c : Coins) (d : Denom)
    (h : Coins.IsNotNegative c = true) : 0 ≤ amountOfDenom c d := by
  induction c with
  | nil => simp [amountOfDenom]
  | cons x xs ih =>
    simp only [Coins.IsNotNegative, List.all_cons, Bool.and_eq_true] at h
    have h1 : (0 : Int) ≤ x.amount := by
      have := h.1; simp [Coin.IsNotNegative] at this; exact this
    have h2 := ih h.2
    simp only [amountOfDenom]
    by_cases hdd : x.denom = d <;> simp [hdd] <;> omega

theorem storeGet_storeSet_self (store : Store) (k : Bytes) (v : Paychan) :
    storeGet (storeSet store k v) k = some v := by
  induction store with
  | nil => simp [storeSet, storeGet]
  | cons hd tl ih =>
    obtain ⟨k2, w⟩ := hd
    simp only [storeSet]
    by_cases h : k2 = k
    · simp [h, storeGet]
    · simp [h, storeGet, ih]

theorem storeGet_storeDelete_self (store : Store) (k : Bytes) :
    storeGet (storeDelete store k) k = none := by
  induction store with
  | nil => simp [storeDelete, storeGet]
  | cons hd tl ih =>
    obtain ⟨k2, w⟩ := hd
    simp only [storeDelete]
    by_cases h : k2 = k
    · simp [h, ih]
    · simp [h, storeGet, ih]

theorem getCoins_setCoins_self (accts : Accounts) (a : Address) (c : Coins) :
    getCoins (setCoins accts a c) a = c := by
  induction accts with
  | nil => simp [setCoins, getCoins]
  | cons hd tl ih =>
    obtain ⟨b, w⟩ := hd
    simp only [setCoins]
    by_cases h : b = a
    · simp [h, getCoins]
    · simp [h, getCoins, ih]

theorem getCoins_setCoins_ne (accts : Accounts) (a b : Address) (c : Coins)
    (h : a ≠ b) : getCoins (setCoins accts a c) b = getCoins accts b := by
  induction accts with
  | nil => simp [setCoins, getCoins, h]
  | cons hd tl ih =>
    obtain ⟨x, w⟩ := hd
    simp only [setCoins]
    by_cases hx : x = a
    · subst hx
      simp [getCoins, h]
    · simp only [hx, if_false, getCoins]
      by_cases hxb : x = b <;> simp [hxb, ih]

theorem getCoins_addCoins_ne (accts : Accounts) (a b : Address) (c : Coins)
    (h : a ≠ b) : getCoins (addCoins accts a c) b = getCoins accts b := by
  simp only [addCoins]
  by_cases hnn : Coins.IsNotNegative (Coins.Plus (getCoins accts a) c) = true
  · rw [if_pos hnn, getCoins_setCoins_ne accts a b _ h]
  · rw [if_neg hnn]

theorem getCoins_addCoins_self (accts : Accounts) (a : Address) (c : Coins)
    (hold : Coins.IsNotNegative (getCoins accts a) = true)
    (hc : Coins.IsNotNegative c = true) :
    getCoins (addCoins accts a c) a = Coins.Plus (getCoins accts a) c := by
  simp only [addCoins]
  rw [if_pos (isNotNegative_Plus _ _ hold hc), getCoins_setCoins_self]

/-- Inversion of a successful CreatePaychan: every validation passed, the bank
debit succeeded, and the resulting state is the debited ledger together with a
record for channel id 1 (GetPaychans is the stub, so the count is always 0). -/
theorem create_ok_inversion (st st2 : St) (s r : Address) (a : Coins)
    (h : CreatePaychan st s r a = .ok st2) :
    s.isEmpty = false ∧ r.isEmpty = false ∧ a.isEmpty = false
    ∧ Coins.IsValid a = true ∧ Coins.IsPositive a = true
    ∧ Coins.IsNotNegative (Coins.Minus (getCoins st.accounts s) a) = true
    ∧ st2 = { store := setPaychan st.store
                { sender := s, receiver := r, id := 1, balance := a },
              accounts := setCoins st.accounts s
                (Coins.Minus (getCoins st.accounts s) a) } := by
  have h1 : s.isEmpty = false := by
    cases hc : s.isEmpty
    · rfl
    · simp [CreatePaychan, hc] at h
  have h2 : r.isEmpty = false := by
    cases hc : r.isEmpty
    · rfl
    · simp [CreatePaychan, h1, hc] at h
  have h3 : a.isEmpty = false := by
    cases hc : a.isEmpty
    · rfl
    · simp [CreatePaychan, h1, h2, hc] at h
  have h4 : Coins.IsValid a = true := by
    cases hc : Coins.IsValid a
    · simp [CreatePaychan, h1, h2, h3, hc] at h
    · rfl
  have h5 : Coins.IsPositive a = true := by
    cases hc : Coins.IsPositive a
    · simp [CreatePaychan, h1, h2, h3, h4, hc] at h
    · rfl
  simp only [CreatePaychan, h1, h2, h3, h4, h5, Bool.false_eq_true, if_false,
    Bool.not_true, subtractCoins, GetPaychans, List.length_nil, Nat.cast_zero,
    zero_add] at h
  cases hnn : Coins.IsNotNegative (Coins.Minus (getCoins st.accounts s) a)
  · rw [hnn] at h
    simp at h
  · rw [hnn] at h
    simp only [if_true] at h
    refine ⟨h1, h2, h3, h4, h5, rfl, ?_⟩
    exact (Except.ok.injEq _ _).mp h |>.symm

/-- Inversion of a successful ClosePaychan: every validation passed, a channel
was found under the encoded key, the remainder was non-negative, and the
resulting state credits sender then receiver and deletes the record under the
stored channel's own key. -/
theorem close_ok_inversion (st st2 : St) (s r : Address) (id : Int)
    (amt : Coins) (h : ClosePaychan st s r id amt = .ok st2) :
    s.isEmpty = false ∧ r.isEmpty = false ∧ amt.isEmpty = false ∧ ¬ id < 0
    ∧ Coins.IsValid amt = true ∧ Coins.IsPositive amt = true
    ∧ ∃ pych, storeGet st.store (paychanKey s r id) = some pych
      ∧ Coins.IsNotNegative (Coins.Minus pych.balance amt) = true
      ∧ st2 = { store := storeDelete st.store
                  (paychanKey pych.sender pych.receiver pych.id),
                accounts := addCoins
                  (addCoins st.accounts s (Coins.Minus pych.balance amt))
                  r amt } := by
  have h1 : s.isEmpty = false := by
    cases hc : s.isEmpty
    · rfl
    · simp [ClosePaychan, hc] at h
  have h2 : r.isEmpty = false := by
    cases hc : r.isEmpty
    · rfl
    · simp [ClosePaychan, h1, hc] at h
  have h3 : amt.isEmpty = false := by
    cases hc : amt.isEmpty
    · rfl
    · simp [ClosePaychan, h1, h2, hc] at h
  have h4 : ¬ id < 0 := by
    intro hc
    simp [ClosePaychan, h1, h2, h3, hc] at h
  have h5 : Coins.IsValid amt = true := by
    cases hc : Coins.IsValid amt
    · simp [ClosePaychan, h1, h2, h3, h4, hc] at h
    · rfl
  have h6 : Coins.IsPositive amt = true := by
    cases hc : Coins.IsPositive amt
    · simp [ClosePaychan, h1, h2, h3, h4, h5, hc] at h
    · rfl
  simp only [ClosePaychan, h1, h2, h3, h4, h5, h6, Bool.false_eq_true, if_false,
    Bool.not_true, GetPaychan] at h
  cases hget : storeGet st.store (paychanKey s r id)
  · rw [hget] at h
    simp at h
  · rename_i pych
    rw [hget] at h
    simp only [] at h
    cases hnn : Coins.IsNotNegative (Coins.Minus pych.balance amt)
    · rw [hnn] at h
      simp at h
    · rw [hnn] at h
      simp only [if_true] at h
      refine ⟨h1, h2, h3, h4, h5, h6, pych, rfl, hnn, ?_⟩
      exact (Except.ok.injEq _ _).mp h |>.symm

/-! Claim theorems. -/

/-- C8: for a key absent from the Store, GetPaychan returns found = false with
the zero-value channel and no error (its type has no error outcome); for a
present key it returns found = true with exactly the stored channel, and a
channel written by setPaychan is read back unchanged (the codec round trip is
modelled as faithful). -/
theorem getPaychan_lookup_correct (store : Store) (s r : Address) (id : Int) :
    (storeGet store (paychanKey s r id) = none →
      GetPaychan store s r id = (zeroPaychan, false))
    ∧ (∀ pych, storeGet store (paychanKey s r id) = some pych →
      GetPaychan store s r id = (pych, true))
    ∧ (∀ pych, GetPaychan (setPaychan store pych) pych.sender pych.receiver pych.id
        = (pych, true)) := by
  refine ⟨?_, ?_, ?_⟩
  · intro h
    simp [GetPaychan, h]
  · intro pych h
    simp [GetPaychan, h]
  · intro pych
    simp [GetPaychan, setPaychan, storeGet_storeSet_self]

/-- Witness for C8 at a concrete empty store and a concrete one-channel
store. -/
theorem getPaychan_lookup_correct_witness :
    GetPaychan [] [1] [2] 1 = (zeroPaychan, false)
    ∧ GetPaychan [([1, 2, 49],
        { sender := [1], receiver := [2], id := 1, balance := [⟨[7], 5⟩] })]
        [1] [2] 1
      = ({ sender := [1], receiver := [2], id := 1, balance := [⟨[7], 5⟩] }, true) :=
  ⟨(getPaychan_lookup_correct [] [1] [2] 1).1 rfl,
   (getPaychan_lookup_correct
      [([1, 2, 49],
        { sender := [1], receiver := [2], id := 1, balance := [⟨[7], 5⟩] })]
      [1] [2] 1).2.1 _ rfl⟩

/-- C10: GetPaychan performs no input validation: for every sender and
receiver (empty included) and every id (negative included) it consults the
Store at the encoded key, its found flag is exactly presence of that key, and
absence yields the zero-value channel with found = false, never a validation
error (its return type has none). -/
theorem getPaychan_no_validation (store : Store) (s r : Address) (id : Int) :
    (GetPaychan store s r id).2 = (storeGet store (paychanKey s r id)).isSome
    ∧ (storeGet store (paychanKey s r id) = none →
        GetPaychan store s r id = (zeroPaychan, false)) := by
  constructor
  · cases h : storeGet store (paychanKey s r id) <;> simp [GetPaychan, h]
  · intro h
    simp [GetPaychan, h]

/-- Witness for C10 at empty sender and receiver and a negative id. -/
theorem getPaychan_no_validation_witness :
    (GetPaychan [] [] [] (-3)).2 = (storeGet [] (paychanKey [] [] (-3))).isSome
    ∧ GetPaychan [] [] [] (-3) = (zeroPaychan, false) :=
  ⟨(getPaychan_no_validation [] [] [] (-3)).1,
   (getPaychan_no_validation [] [] [] (-3)).2 rfl⟩

/-- C9: paychanKey is a pure function of its three arguments returning the
raw sender bytes, then the raw receiver bytes, then the ASCII decimal bytes
of the id (itoa), and equal arguments give equal keys. -/
theorem paychanKey_concat (s r : Address) (id : Int) :
    paychanKey s r id = s ++ (r ++ itoa id)
    ∧ (∀ s2 r2 id2, s = s2 → r = r2 → id = id2 →
        paychanKey s r id = paychanKey s2 r2 id2) := by
  constructor
  · simp [paychanKey]
  · intro s2 r2 id2 hs hr hid
    rw [hs, hr, hid]

/-- Witness for C9 at a concrete triple. -/
theorem paychanKey_concat_witness :
    paychanKey [1] [2] 7 = [1] ++ ([2] ++ itoa 7)
    ∧ paychanKey [1] [2] 7 = paychanKey [1] [2] 7 :=
  ⟨(paychanKey_concat [1] [2] 7).1,
   (paychanKey_concat [1] [2] 7).2 [1] [2] 7 rfl rfl rfl⟩

/-- C5 (counterexample to the spec's error kind): with non-empty addresses,
non-empty receiverAmount and id = -1, ClosePaychan rejects with the
invalidAddress kind, because the source builds sdk.ErrInvalidAddress from the
id (next to a TODO about custom errors); no InvalidChannelId kind exists in
the code. The rejection itself and the absence of mutation hold (an error
result carries no state). -/
theorem close_negative_id_error_kind :
    ClosePaychan { store := [], accounts := [] } [1] [2] (-1) [⟨[7], 1⟩]
      = .error .invalidAddress := rfl

/-- C2 (counterexample): two successful CreatePaychan calls for the same pair
both assign id 1, because GetPaychans is an unimplemented stub that always
reports zero existing channels. The second create overwrites the first
channel record under the identical key [1, 2, 49]: after both calls the store
holds a single record whose balance is the second amount, while the sender
was debited twice. -/
theorem create_duplicate_id_bug :
    CreatePaychan { store := [], accounts := [([1], [⟨[7], 100⟩])] }
        [1] [2] [⟨[7], 5⟩]
      = .ok { store := [([1, 2, 49],
                { sender := [1], receiver := [2], id := 1, balance := [⟨[7], 5⟩] })],
              accounts := [([1], [⟨[7], 95⟩])] }
    ∧ CreatePaychan
        { store := [([1, 2, 49],
            { sender := [1], receiver := [2], id := 1, balance := [⟨[7], 5⟩] })],
          accounts := [([1], [⟨[7], 95⟩])] }
        [1] [2] [⟨[7], 3⟩]
      = .ok { store := [([1, 2, 49],
                { sender := [1], receiver := [2], id := 1, balance := [⟨[7], 3⟩] })],
              accounts := [([1], [⟨[7], 92⟩])] } :=
  ⟨rfl, rfl⟩

/-- C6: CreatePaychan validates in order with the first failure winning: an
empty sender gives invalidAddress; otherwise an empty receiver gives
invalidAddress; otherwise an amount that is empty, not canonically valid, or
not strictly positive everywhere gives invalidCoins (the sdk form of the
spec's InvalidAmount). An error result carries no state, so no ledger or
Store mutation happens. -/
theorem create_validation_order (st : St) (s r : Address) (a : Coins) :
    (s = [] → CreatePaychan st s r a = .error .invalidAddress)
    ∧ (s ≠ [] → r = [] → CreatePaychan st s r a = .error .invalidAddress)
    ∧ (s ≠ [] → r ≠ [] →
        (a = [] ∨ Coins.IsValid a = false ∨ Coins.IsPositive a = false) →
        CreatePaychan st s r a = .error .invalidCoins) := by
  refine ⟨?_, ?_, ?_⟩
  · intro hs
    subst hs
    simp [CreatePaychan]
  · intro hs hr
    subst hr
    have hs2 : s.isEmpty = false := by
      cases s with
      | nil => exact absurd rfl hs
      | cons x xs => rfl
    simp [CreatePaychan, hs2]
  · intro hs hr hbad
    have hs2 : s.isEmpty = false := by
      cases s with
      | nil => exact absurd rfl hs
      | cons x xs => rfl
    have hr2 : r.isEmpty = false := by
      cases r with
      | nil => exact absurd rfl hr
      | cons x xs => rfl
    by_cases he : a.isEmpty = true
    · simp [CreatePaychan, hs2, hr2, he]
    · have he2 : a.isEmpty = false := by simpa using he
      by_cases hv : Coins.IsValid a = true
      · have hp : Coins.IsPositive a = false := by
          rcases hbad with hb | hb | hb
          · subst hb
            simp at he2
          · rw [hv] at hb
            simp at hb
          · exact hb
        simp [CreatePaychan, hs2, hr2, he2, hv, hp]
      · have hv2 : Coins.IsValid a = false := by simpa using hv
        simp [CreatePaychan, hs2, hr2, he2, hv2]

/-- Witness for C6: the three rejection shapes at concrete inputs (empty
sender; empty receiver; duplicate-denomination amount). -/
theorem create_validation_order_witness :
    CreatePaychan { store := [], accounts := [] } [] [2] [⟨[7], 1⟩]
      = .error .invalidAddress
    ∧ CreatePaychan { store := [], accounts := [] } [1] [] [⟨[7], 1⟩]
      = .error .invalidAddress
    ∧ CreatePaychan { store := [], accounts := [] } [1] [2] [⟨[7], 1⟩, ⟨[7], 1⟩]
      = .error .invalidCoins :=
  ⟨(create_validation_order { store := [], accounts := [] } [] [2] [⟨[7], 1⟩]).1 rfl,
   (create_validation_order { store := [], accounts := [] } [1] [] [⟨[7], 1⟩]).2.1
     (by simp) rfl,
   (create_validation_order { store := [], accounts := [] } [1] [2]
     [⟨[7], 1⟩, ⟨[7], 1⟩]).2.2 (by simp) (by simp) (Or.inr (Or.inl rfl))⟩

/-- C7: when every validation passes but the bank debit fails (the sender's
ledger balance minus the amount is negative somewhere), CreatePaychan aborts
with insufficientFunds; the error result carries no state, so no channel
record is persisted. -/
theorem create_debit_failure (st : St) (s r : Address) (a : Coins)
    (hs : s ≠ []) (hr : r ≠ []) (hv : Coins.IsValid a = true)
    (hp : Coins.IsPositive a = true)
    (hdebit : Coins.IsNotNegative (Coins.Minus (getCoins st.accounts s) a) = false) :
    CreatePaychan st s r a = .error .insufficientFunds := by
  have hs2 : s.isEmpty = false := by
    cases s with
    | nil => exact absurd rfl hs
    | cons x xs => rfl
  have hr2 : r.isEmpty = false := by
    cases r with
    | nil => exact absurd rfl hr
    | cons x xs => rfl
  have he2 : a.isEmpty = false := by
    cases a with
    | nil => simp [Coins.IsPositive] at hp
    | cons c cs => rfl
  simp [CreatePaychan, hs2, hr2, he2, hv, hp, subtractCoins, hdebit]

/-- Witness for C7: an unfunded sender cannot open a channel. -/
theorem create_debit_failure_witness :
    CreatePaychan { store := [], accounts := [] } [1] [2] [⟨[7], 5⟩]
      = .error .insufficientFunds :=
  create_debit_failure { store := [], accounts := [] } [1] [2] [⟨[7], 5⟩]
    (by simp) (by simp) rfl rfl rfl

/-- C4: when the validations pass and the channel exists but receiverAmount
exceeds the locked balance in some denomination, ClosePaychan returns
insufficientFunds; the error result carries no state, so no ledger credit and
no Store delete happen. -/
theorem close_insufficient_balance (st : St) (s r : Address) (id : Int)
    (amt : Coins) (pych : Paychan) (d : Denom)
    (hs : s ≠ []) (hr : r ≠ []) (hid : 0 ≤ id)
    (hv : Coins.IsValid amt = true) (hp : Coins.IsPositive amt = true)
    (hfound : storeGet st.store (paychanKey s r id) = some pych)
    (hexceed : amountOfDenom pych.balance d < amountOfDenom amt d) :
    ClosePaychan st s r id amt = .error .insufficientFunds := by
  have hs2 : s.isEmpty = false := by
    cases s with
    | nil => exact absurd rfl hs
    | cons x xs => rfl
  have hr2 : r.isEmpty = false := by
    cases r with
    | nil => exact absurd rfl hr
    | cons x xs => rfl
  have he2 : amt.isEmpty = false := by
    cases amt with
    | nil => simp [Coins.IsPositive] at hp
    | cons c cs => rfl
  have hid2 : ¬ id < 0 := by omega
  have hnn : Coins.IsNotNegative (Coins.Minus pych.balance amt) = false := by
    by_contra hc
    have hc2 : Coins.IsNotNegative (Coins.Minus pych.balance amt) = true := by
      simpa using hc
    have h0 := amountOfDenom_nonneg _ d hc2
    rw [amountOfDenom_Minus] at h0
    omega
  simp [ClosePaychan, hs2, hr2, he2, hid2, hv, hp, GetPaychan, hfound, hnn]

/-- Witness for C4: a 10-gold channel cannot pay out 20 gold. -/
theorem close_insufficient_balance_witness :
    ClosePaychan
      { store := [([1, 2, 49],
          { sender := [1], receiver := [2], id := 1, balance := [⟨[7], 10⟩] })],
        accounts := [] }
      [1] [2] 1 [⟨[7], 20⟩] = .error .insufficientFunds :=
  close_insufficient_balance
    { store := [([1, 2, 49],
        { sender := [1], receiver := [2], id := 1, balance := [⟨[7], 10⟩] })],
      accounts := [] }
    [1] [2] 1 [⟨[7], 20⟩]
    { sender := [1], receiver := [2], id := 1, balance := [⟨[7], 10⟩] } [7]
    (by simp) (by simp) (by norm_num) rfl rfl rfl (by decide)

/-- C3: closing is exactly-once. The hypotheses say the stored channel sits
under its own key (the invariant setPaychan maintains, since it always writes
a record under the key built from the record's own fields). After a
successful close the record is gone from the Store, and a second close of the
identical (sender, receiver, id) with any well-formed receiverAmount fails
with the not-found kind (sdk.ErrUnknownAddress with message "paychan not
found" in the source, the spec's ChannelNotFound); the error result carries
no state, so nothing is credited. -/
theorem close_exactly_once (st st2 : St) (s r : Address) (id : Int)
    (amt amt2 : Coins) (pych : Paychan)
    (hfound : storeGet st.store (paychanKey s r id) = some pych)
    (hkey : paychanKey pych.sender pych.receiver pych.id = paychanKey s r id)
    (h1 : ClosePaychan st s r id amt = .ok st2)
    (h2a : amt2.isEmpty = false) (h2b : Coins.IsValid amt2 = true)
    (h2c : Coins.IsPositive amt2 = true) :
    (GetPaychan st2.store s r id).2 = false
    ∧ ClosePaychan st2 s r id amt2 = .error .unknownAddress := by
  obtain ⟨hs, hr, _, hid, _, _, pych2, hget2, hnn, hst2⟩ :=
    close_ok_inversion st st2 s r id amt h1
  have hp : pych2 = pych := by
    rw [hfound] at hget2
    exact (Option.some.inj hget2).symm
  subst hp
  have hnone : storeGet st2.store (paychanKey s r id) = none := by
    rw [hst2]
    simp only []
    rw [hkey]
    exact storeGet_storeDelete_self st.store (paychanKey s r id)
  refine ⟨?_, ?_⟩
  · simp [GetPaychan, hnone]
  · simp [ClosePaychan, hs, hr, h2a, hid, h2b, h2c, GetPaychan, hnone]

/-- Witness for C3: close a concrete 40-gold channel paying 15 to the
receiver, then retry the identical close with 1 gold. -/
theorem close_exactly_once_witness :
    (GetPaychan ({ store := [],
                   accounts := [([1], [⟨[7], 25⟩]), ([2], [⟨[7], 15⟩])] } : St).store
        [1] [2] 1).2 = false
    ∧ ClosePaychan { store := [],
                     accounts := [([1], [⟨[7], 25⟩]), ([2], [⟨[7], 15⟩])] }
        [1] [2] 1 [⟨[7], 1⟩] = .error .unknownAddress :=
  close_exactly_once
    { store := [([1, 2, 49],
        { sender := [1], receiver := [2], id := 1, balance := [⟨[7], 40⟩] })],
      accounts := [] }
    { store := [], accounts := [([1], [⟨[7], 25⟩]), ([2], [⟨[7], 15⟩])] }
    [1] [2] 1 [⟨[7], 15⟩] [⟨[7], 1⟩]
    { sender := [1], receiver := [2], id := 1, balance := [⟨[7], 40⟩] }
    rfl rfl rfl rfl rfl rfl

/-- C1: conservation through a create followed by a close of the created
channel (which the stubbed enumeration always numbers 1). For distinct
parties and a receiver whose ledger balance is well formed (non-negative,
the bank invariant), each denomination of the sender-return amount
(balance minus receiverAmount) plus the same denomination of receiverAmount
equals that denomination of the original amount, and the closure credits the
sender's and receiver's ledger accounts by exactly those amounts. -/
theorem create_close_conservation (st0 st1 st2 : St) (s r : Address)
    (amount recvAmt : Coins) (hsr : s ≠ r)
    (hrbal : Coins.IsNotNegative (getCoins st0.accounts r) = true)
    (hc : CreatePaychan st0 s r amount = .ok st1)
    (hcl : ClosePaychan st1 s r 1 recvAmt = .ok st2) :
    (∀ d, amountOfDenom (Coins.Minus amount recvAmt) d + amountOfDenom recvAmt d
        = amountOfDenom amount d)
    ∧ (∀ d, amountOfDenom (getCoins st2.accounts s) d
        = amountOfDenom (getCoins st1.accounts s) d
          + amountOfDenom (Coins.Minus amount recvAmt) d)
    ∧ (∀ d, amountOfDenom (getCoins st2.accounts r) d
        = amountOfDenom (getCoins st1.accounts r) d + amountOfDenom recvAmt d) := by
  obtain ⟨_, _, _, _, _, hnnc, hst1⟩ := create_ok_inversion st0 st1 s r amount hc
  obtain ⟨_, _, _, _, _, hclp, pych2, hget2, hnn2, hst2⟩ :=
    close_ok_inversion st1 st2 s r 1 recvAmt hcl
  have hget1 : storeGet st1.store (paychanKey s r 1)
      = some { sender := s, receiver := r, id := 1, balance := amount } := by
    rw [hst1]
    exact storeGet_storeSet_self st0.store _ _
  have hp : pych2 = { sender := s, receiver := r, id := 1, balance := amount } := by
    rw [hget1] at hget2
    exact (Option.some.inj hget2).symm
  subst hp
  simp only [] at hnn2 hst2
  have hs1 : getCoins st1.accounts s
      = Coins.Minus (getCoins st0.accounts s) amount := by
    rw [hst1]
    exact getCoins_setCoins_self st0.accounts s _
  have hs1nn : Coins.IsNotNegative (getCoins st1.accounts s) = true := by
    rw [hs1]
    exact hnnc
  have hr1 : getCoins st1.accounts r = getCoins st0.accounts r := by
    rw [hst1]
    exact getCoins_setCoins_ne st0.accounts s r _ hsr
  have hr1nn : Coins.IsNotNegative (getCoins st1.accounts r) = true := by
    rw [hr1]
    exact hrbal
  have hrecvnn : Coins.IsNotNegative recvAmt = true :=
    isNotNegative_of_isPositive recvAmt hclp
  refine ⟨?_, ?_, ?_⟩
  · intro d
    rw [amountOfDenom_Minus]
    ring
  · intro d
    rw [hst2]
    simp only []
    rw [getCoins_addCoins_ne _ r s _ (Ne.symm hsr)]
    rw [getCoins_addCoins_self _ s _ hs1nn hnn2]
    rw [amountOfDenom_Plus]
  · intro d
    rw [hst2]
    simp only []
    have hacc1r : getCoins (addCoins st1.accounts s
        (Coins.Minus amount recvAmt)) r = getCoins st1.accounts r :=
      getCoins_addCoins_ne st1.accounts s r _ hsr
    rw [getCoins_addCoins_self _ r _ (by rw [hacc1r]; exact hr1nn) hrecvnn]
    rw [hacc1r, amountOfDenom_Plus]

/-- Witness for C1: the spec's example run (lock 40 gold out of 100, close
paying 15): the sender ends at 85, the receiver at 15, per denomination. -/
theorem create_close_conservation_witness :
    (∀ d, amountOfDenom (Coins.Minus [⟨[7], 40⟩] [⟨[7], 15⟩]) d
        + amountOfDenom [⟨[7], 15⟩] d = amountOfDenom [⟨[7], 40⟩] d)
    ∧ (∀ d, amountOfDenom (getCoins [([1], [⟨[7], 85⟩]), ([2], [⟨[7], 15⟩])] [1]) d
        = amountOfDenom (getCoins [([1], [⟨[7], 60⟩])] [1]) d
          + amountOfDenom (Coins.Minus [⟨[7], 40⟩] [⟨[7], 15⟩]) d)
    ∧ (∀ d, amountOfDenom (getCoins [([1], [⟨[7], 85⟩]), ([2], [⟨[7], 15⟩])] [2]) d
        = amountOfDenom (getCoins [([1], [⟨[7], 60⟩])] [2]) d
          + amountOfDenom [⟨[7], 15⟩] d) :=
  create_close_conservation
    { store := [], accounts := [([1], [⟨[7], 100⟩])] }
    { store := [([1, 2, 49],
        { sender := [1], receiver := [2], id := 1, balance := [⟨[7], 40⟩] })],
      accounts := [([1], [⟨[7], 60⟩])] }
    { store := [], accounts := [([1], [⟨[7], 85⟩]), ([2], [⟨[7], 15⟩])] }
    [1] [2] [⟨[7], 40⟩] [⟨[7], 15⟩]
    (by simp) rfl rfl rfl

end Kava
